import Mathlib

/-!
# Verification of the lighthouse-jx-controller reconciliation loop

Shallow embedding of `pkg/engines/jx/controller.go` from
jenkins-x/lighthouse-jx-controller: the `Reconcile` state machine, the
pull-ref construction (`getPullRefs`), the report-URL renderer
(`createReportTargetURL`) and their data model.

Conventions of the embedding:
* Go strings are Lean `String`; the Go zero value `""` means "unset".
* The Go map `job.Labels` is `Option (List (String × String))`: `none` is a
  nil map (a write to it panics in Go; the embedding records this in the
  `panicked` flag of the reconcile trace).
* The external kubernetes client and the metapipeline engine are oracles:
  their results (`createResult`, `applyResult`, `updateResult`,
  `statusUpdateResult`) are inputs of one reconciliation step, and the calls
  the step makes are recorded in the returned trace.
* Go's `text/template` with `Option("missingkey=error")` is embedded at the
  level of the parsed template: a template is a list of literal and
  variable parts, and execution fails on a variable absent from the data
  map, exactly the strict missing-key behaviour the source configures.
-/

namespace LighthouseJX

/-! ## Data model -/

/-- `spec.refs.pulls[i]`: a pull request reference with number and merge SHA. -/
structure Pull where
  number : Int
  sha : String
  deriving Repr, DecidableEq

/-- `spec.refs`: the job's source reference. -/
structure Refs where
  org : String
  repo : String
  cloneURI : String
  baseRef : String
  baseSHA : String
  pulls : List Pull
  deriving Repr, DecidableEq

/-- `lighthousev1alpha1.LighthouseJobSpec`, the fields `Reconcile` reads.
`envVars` embeds the result of `GetEnvVars()`. -/
structure LighthouseJobSpec where
  agent : String
  context : String
  job : String
  refs : Refs
  envVars : List (String × String)
  deriving Repr, DecidableEq

/-- Lifecycle states of a LighthouseJob (`status.state`). -/
inductive PipelineState where
  | triggered
  | pending
  | running
  | succeeded
  | failed
  | aborted
  deriving Repr, DecidableEq

/-- The activity snapshot embedded in the job status
(`lighthousev1alpha1.ActivityRecord`, the fields this controller writes). -/
structure ActivityRecord where
  name : String
  owner : String
  repo : String
  branch : String
  buildIdentifier : String
  context : String
  deriving Repr, DecidableEq

/-- `status` of a LighthouseJob. `startTime` is `none` until set,
`activity` is a nil-able pointer in Go, hence an `Option`. -/
structure LighthouseJobStatus where
  state : PipelineState
  activityName : String
  startTime : Option Nat
  reportURL : String
  activity : Option ActivityRecord
  deriving Repr, DecidableEq

/-- A LighthouseJob resource. `labels = none` models a nil Go map. -/
structure LighthouseJob where
  name : String
  nsName : String
  labels : Option (List (String × String))
  spec : LighthouseJobSpec
  status : LighthouseJobStatus
  deriving Repr, DecidableEq

/-- `jxv1.PipelineActivitySpec`, the fields read by this controller. -/
structure PipelineActivitySpec where
  build : String
  context : String
  gitOwner : String
  gitRepository : String
  gitBranch : String
  deriving Repr, DecidableEq

/-- A `jxv1.PipelineActivity` resource. -/
structure PipelineActivity where
  name : String
  spec : PipelineActivitySpec
  deriving Repr, DecidableEq

/-! ## Constants (from the source and the lighthouse config package) -/

/-- `configjob.JenkinsXAgent`. -/
def jenkinsXAgent : String := "jenkins-x"

/-- `configjob.LegacyDefaultAgent`. -/
def legacyDefaultAgent : String := "tekton"

/-- `util.BuildNumLabel`, the label key for the build number. -/
def buildNumLabel : String := "lighthouse.jenkins-x.io/buildNum"

/-! ## External-dependency models -/

/-- Modelled from the spec: `util.ToValidName` (from the lighthouse dependency,
not under this repository's sources) computes the correlation key, "a
normalized string derived from an activity's name (case/character
normalization)": lowercase, and every character outside `[a-z0-9-]`
replaced by `-`. Only its being a name normalization that keeps nonempty
names nonempty matters to the claims. -/
def toValidName (s : String) : String :=
  String.mk (s.data.map fun c =>
    let c := c.toLower
    if ('a' ≤ c ∧ c ≤ 'z') ∨ ('0' ≤ c ∧ c ≤ '9') ∨ c = '-' then c else '-')

/-- Modelled from the spec: `LighthouseJobSpec.GetBranch` (from the lighthouse
dependency, not under this repository's sources): the branch of the job's
source reference — the base branch, or `PR-<number>` of the first pull
request when pull requests are present. -/
def LighthouseJobSpec.getBranch (spec : LighthouseJobSpec) : String :=
  match spec.refs.pulls with
  | [] => spec.refs.baseRef
  | p :: _ => "PR-" ++ toString p.number

/-- Modelled from the spec: `ConvertPipelineActivity` (repository code outside
the provided sources; only its caller at controller.go:228 is visible)
"translate[s] the activity into the job's embedded status snapshot (owner,
repo, branch, build identifier, context)": a field-by-field translation of
the activity into an `ActivityRecord`. It cannot itself apply the
`"jenkins-x"` context default: controller.go:241-244 re-derives exactly that
default from `activityRecord.Context == ""`, which would be dead code
otherwise. -/
def ConvertPipelineActivity (a : PipelineActivity) : ActivityRecord :=
  { name := a.name
    owner := a.spec.gitOwner
    repo := a.spec.gitRepository
    branch := a.spec.gitBranch
    buildIdentifier := a.spec.build
    context := a.spec.context }

/-! ## metapipeline engine types (jx/v2 pkg/tekton/metapipeline) -/

/-- `metapipeline.PullRequestRef`. -/
structure PullRequestRef where
  id : String
  mergeSHA : String
  deriving Repr, DecidableEq

/-- `metapipeline.PullRef`. -/
structure PullRef where
  sourceURL : String
  baseBranch : String
  baseSHA : String
  pullRequests : List PullRequestRef
  deriving Repr, DecidableEq

/-- `metapipeline.PullRef.String()`: `baseBranch:baseSHA` followed by
`,id:mergeSHA` for each pull request. -/
def PullRef.string (p : PullRef) : String :=
  p.pullRequests.foldl (fun s pr => s ++ "," ++ pr.id ++ ":" ++ pr.mergeSHA)
    (p.baseBranch ++ ":" ++ p.baseSHA)

/-- `metapipeline.PipelineKind`: release vs pull-request run kind. -/
inductive PipelineKind where
  | release
  | pullRequest
  deriving Repr, DecidableEq

/-- `metapipeline.PipelineCreateParam`, the fields controller.go:188-199 sets. -/
structure PipelineCreateParam where
  pullRef : PullRef
  pipelineKind : PipelineKind
  context : String
  serviceAccount : String
  defaultImage : String
  envVariables : List (String × String)
  deriving Repr, DecidableEq

/-- `kube.PromoteStepActivityKey`: the activity identity returned by the
engine's `Create`; only its name is read by the controller. -/
structure ActivityKey where
  name : String
  deriving Repr, DecidableEq

/-! ## getPullRefs (controller.go:273-287) -/

/-- `getPullRefs`: translate the job's refs into a `metapipeline.PullRef`;
pull numbers are rendered with `strconv.Itoa`. -/
def getPullRefs (sourceURL : String) (spec : LighthouseJobSpec) : PullRef :=
  match spec.refs.pulls with
  | [] =>
    { sourceURL := sourceURL, baseBranch := spec.refs.baseRef
      baseSHA := spec.refs.baseSHA, pullRequests := [] }
  | pulls =>
    { sourceURL := sourceURL, baseBranch := spec.refs.baseRef
      baseSHA := spec.refs.baseSHA
      pullRequests := pulls.map fun pull => ⟨toString pull.number, pull.sha⟩ }

/-! ## URL renderer (controller.go:299-336) -/

/-- `ReportParams` (controller.go:300-302): the flat parameter set for the
target URL template. -/
structure ReportParams where
  baseURL : String
  owner : String
  repository : String
  branch : String
  build : String
  context : String
  team : String
  deriving Repr, DecidableEq

/-- `toObjectMap` (controller.go:328-336): the struct marshalled to a map;
for `ReportParams` (plain exported string fields) this is the map from field
name to field value and cannot fail. -/
def toObjectMap (p : ReportParams) : List (String × String) :=
  [("BaseURL", p.baseURL), ("Owner", p.owner), ("Repository", p.repository),
   ("Branch", p.branch), ("Build", p.build), ("Context", p.context),
   ("Team", p.team)]

/-- One part of a parsed `text/template`: literal text or a variable
reference `{{ .name }}`. -/
inductive TmplPart where
  | lit (s : String)
  | var (name : String)
  deriving Repr, DecidableEq

/-- A parsed template text. -/
abbrev TemplateText := List TmplPart

/-- First value bound to a key in the data map. -/
def lookupKey (data : List (String × String)) (k : String) : Option String :=
  match data with
  | [] => none
  | (k', v) :: rest => if k' = k then some v else lookupKey rest k

/-- `tmpl.Execute` with `Option("missingkey=error")`: append literals and
resolved variables; a variable absent from the data map fails the render. -/
def executeTemplate (t : TemplateText) (data : List (String × String)) :
    Except String String :=
  match t with
  | [] => .ok ""
  | .lit s :: rest =>
    match executeTemplate rest data with
    | .ok tail => .ok (s ++ tail)
    | .error e => .error e
  | .var n :: rest =>
    match lookupKey data n with
    | none => .error ("map has no entry for key " ++ n)
    | some v =>
      match executeTemplate rest data with
      | .ok tail => .ok (v ++ tail)
      | .error e => .error e

/-- `defaultTargetURLTemplate` (controller.go:32), parsed:
`{{ .BaseURL }}/teams/{{ .Team }}/projects/{{ .Owner }}/{{ .Repository }}/{{ .Branch }}/{{ .Build }}`. -/
def defaultTargetURLTemplate : TemplateText :=
  [.var "BaseURL", .lit "/teams/", .var "Team", .lit "/projects/",
   .var "Owner", .lit "/", .var "Repository", .lit "/", .var "Branch",
   .lit "/", .var "Build"]

/-- `createReportTargetURL` (controller.go:305-325): render the template over
the parameter map; any failure is logged and yields `""`. -/
def createReportTargetURL (templateText : TemplateText) (params : ReportParams) :
    String :=
  match executeTemplate templateText (toObjectMap params) with
  | .error _ => ""
  | .ok s => s

/-! ## Environment configuration -/

/-- The process environment variables the controller reads
(`os.Getenv`; `""` means unset, as in Go). -/
structure Env where
  jxServiceAccount : String
  jxDefaultImage : String
  reportURLBase : String
  reportURLTeam : String
  deriving Repr, DecidableEq

/-- `getReportURLBase` (controller.go:290-292). -/
def getReportURLBase (env : Env) : String := env.reportURLBase

/-- `getReportURLTeam` (controller.go:295-297). -/
def getReportURLTeam (env : Env) : String := env.reportURLTeam

/-! ## Reconcile (controller.go:122-271) -/

/-- The environment and oracle results one reconciliation step runs against:
the clock (`metav1.Now()`), the controller namespace, and the outcomes the
engine (`Create`/`Apply`) and the kubernetes client (`Update`,
`Status().Update`) would return if called. -/
structure ReconcileDeps where
  env : Env
  nsName : String
  now : Nat
  createResult : Except String ActivityKey
  applyResult : Except String Unit
  updateResult : Except String Unit
  statusUpdateResult : Except String Unit

/-- The error a reconciliation returns, tagged by the failing stage; the
create/apply wraps carry the source's wrap messages. -/
inductive ReconcileError where
  | listFailed (msg : String)
  | createFailed (msg : String)
  | statusUpdateFailed (msg : String)
  | applyFailed (msg : String)
  | updateFailed (msg : String)
  deriving Repr, DecidableEq

/-- The observable effect of one reconciliation: the in-memory job at the
end, the engine calls made, the successfully persisted writes, whether a nil
map assignment panicked, and the returned error. -/
structure ReconcileTrace where
  job : Option LighthouseJob
  createCalls : List PipelineCreateParam
  applyCalls : List ActivityKey
  updateWrites : List LighthouseJob
  statusWrites : List LighthouseJobStatus
  panicked : Bool
  error : Option ReconcileError
  deriving Repr, DecidableEq

/-- A trace that made no calls and no writes. -/
def ReconcileTrace.noop (j : Option LighthouseJob) : ReconcileTrace :=
  { job := j, createCalls := [], applyCalls := [], updateWrites := []
    statusWrites := [], panicked := false, error := none }

/-- The synthetic pull-ref descriptor string (controller.go:156-169): the
`PullRefs` field of the trigger log — `PullRef.String()` when pull requests
are present, else `<branch>:` with the branch defaulted to `master`. -/
def pullRefsString (spec : LighthouseJobSpec) : String :=
  let pullRefData := getPullRefs spec.refs.cloneURI spec
  let branch0 := spec.getBranch
  let branch := if branch0 = "" then "master" else branch0
  let pullRefs0 := if spec.refs.pulls.length > 0 then pullRefData.string else ""
  if pullRefs0 = "" then branch ++ ":" else pullRefs0

/-- The pipeline creation parameters (controller.go:152-199): pull ref from
`getPullRefs`, run kind by presence of pull requests, service account
defaulted to `tekton-bot`, default image and env vars carried through. -/
def buildPipelineCreateParam (env : Env) (spec : LighthouseJobSpec) :
    PipelineCreateParam :=
  let sa0 := env.jxServiceAccount
  let sa := if sa0 = "" then "tekton-bot" else sa0
  let kind := if spec.refs.pulls.length > 0 then PipelineKind.pullRequest
              else PipelineKind.release
  { pullRef := getPullRefs spec.refs.cloneURI spec
    pipelineKind := kind
    context := spec.context
    serviceAccount := sa
    defaultImage := env.jxDefaultImage
    envVariables := spec.envVars }

/-- `strings.TrimRight(urlBase, "/")`: strip trailing slashes. -/
def trimRightSlash (s : String) : String :=
  String.mk ((s.data.reverse.dropWhile (· = '/')).reverse)

/-- `strings.HasPrefix`. -/
def hasPrefix (s pre : String) : Bool :=
  pre.data.isPrefixOf s.data

/-- The report parameters handed to the URL renderer (controller.go:234-255):
team from the env override or the controller namespace, context defaulted to
`jenkins-x`, base URL with trailing slashes trimmed. -/
def reportParams (env : Env) (nsName : String) (record : ActivityRecord) :
    ReportParams :=
  let urlTeam := getReportURLTeam env
  let team := if urlTeam ≠ "" then urlTeam else nsName
  let pipelineContext := if record.context = "" then "jenkins-x"
                         else record.context
  { baseURL := trimRightSlash (getReportURLBase env)
    owner := record.owner
    repository := record.repo
    branch := record.branch
    build := record.buildIdentifier
    context := pipelineContext
    team := team }

/-- The report-URL part of the single-activity branch (controller.go:232-260):
when a base URL is configured, render the target URL and accept it only with
an `http://` or `https://` prefix; otherwise leave the status unchanged. -/
def applyReportURL (env : Env) (nsName : String) (record : ActivityRecord)
    (st : LighthouseJobStatus) : LighthouseJobStatus :=
  let urlBase := getReportURLBase env
  if urlBase ≠ "" then
    let targetURL := createReportTargetURL defaultTargetURLTemplate
      (reportParams env nsName record)
    if hasPrefix targetURL "http://" || hasPrefix targetURL "https://" then
      { st with reportURL := targetURL }
    else st
  else st

/-- Go map assignment on a non-nil map: replace the binding or append it. -/
def assocSet (l : List (String × String)) (k v : String) :
    List (String × String) :=
  match l with
  | [] => [(k, v)]
  | (k', v') :: rest =>
    if k' = k then (k, v) :: rest else (k', v') :: assocSet rest k v

/-- `job.Labels[key] = value`: assignment into a possibly-nil Go map; a nil
map (`none`) makes the assignment panic, the error branch here. -/
def mapAssign (m : Option (List (String × String))) (k v : String) :
    Except Unit (List (String × String)) :=
  match m with
  | none => .error ()
  | some l => .ok (assocSet l k v)

/-- The status assigned on a successful create (controller.go:205-209): the
whole status struct is replaced, so `reportURL` and `activity` are zeroed. -/
def pendingStatus (activityKey : ActivityKey) (now : Nat) : LighthouseJobStatus :=
  { state := PipelineState.pending
    activityName := toValidName activityKey.name
    startTime := some now
    reportURL := ""
    activity := none }

/-- The trigger branch (controller.go:151-218): call `create`; on success set
the `Pending` status, persist it, then call `apply`. -/
def reconcileTriggered (d : ReconcileDeps) (job : LighthouseJob) :
    ReconcileTrace :=
  let param := buildPipelineCreateParam d.env job.spec
  match d.createResult with
  | .error e =>
    { ReconcileTrace.noop (some job) with
      createCalls := [param]
      error := some (.createFailed ("unable to create Tekton CRDs: " ++ e)) }
  | .ok activityKey =>
    let job1 := { job with status := pendingStatus activityKey d.now }
    match d.statusUpdateResult with
    | .error e =>
      { job := some job1, createCalls := [param], applyCalls := []
        updateWrites := [], statusWrites := [], panicked := false
        error := some (.statusUpdateFailed e) }
    | .ok _ =>
      match d.applyResult with
      | .error e =>
        { job := some job1, createCalls := [param]
          applyCalls := [activityKey], updateWrites := []
          statusWrites := [job1.status], panicked := false
          error := some (.applyFailed ("unable to apply Tekton CRDs: " ++ e)) }
      | .ok _ =>
        { job := some job1, createCalls := [param]
          applyCalls := [activityKey], updateWrites := []
          statusWrites := [job1.status], panicked := false
          error := none }

/-- The zero-activity case (controller.go:150-218): trigger only from state
`Triggered`, otherwise no-op. -/
def reconcileZeroActivities (d : ReconcileDeps) (job : LighthouseJob) :
    ReconcileTrace :=
  if job.status.state = PipelineState.triggered then
    reconcileTriggered d job
  else
    ReconcileTrace.noop (some job)

/-- The single-activity case (controller.go:219-265): write the build-number
label (a panic on a nil label map), persist the job, then mirror the
activity into the status and persist the status. -/
def reconcileOneActivity (d : ReconcileDeps) (job : LighthouseJob)
    (pipelineActivity : PipelineActivity) : ReconcileTrace :=
  match mapAssign job.labels buildNumLabel pipelineActivity.spec.build with
  | .error _ =>
    { ReconcileTrace.noop (some job) with panicked := true }
  | .ok labels1 =>
    let job1 := { job with labels := some labels1 }
    match d.updateResult with
    | .error e =>
      { ReconcileTrace.noop (some job1) with error := some (.updateFailed e) }
    | .ok _ =>
      let activityRecord := ConvertPipelineActivity pipelineActivity
      let st1 := applyReportURL d.env d.nsName activityRecord job1.status
      let job2 := { job1 with status := { st1 with activity := some activityRecord } }
      match d.statusUpdateResult with
      | .error e =>
        { job := some job2, createCalls := [], applyCalls := []
          updateWrites := [job1], statusWrites := [], panicked := false
          error := some (.statusUpdateFailed e) }
      | .ok _ =>
        { job := some job2, createCalls := [], applyCalls := []
          updateWrites := [job1], statusWrites := [job2.status]
          panicked := false, error := none }

/-- The body of `Reconcile` once the job is loaded (controller.go:137-270):
the agent filter, the activity list, then the branch on the number of
correlated activities. -/
def reconcileLoaded (d : ReconcileDeps) (job : LighthouseJob)
    (listResult : Except String (List PipelineActivity)) : ReconcileTrace :=
  if job.spec.agent ≠ jenkinsXAgent ∧ job.spec.agent ≠ legacyDefaultAgent then
    ReconcileTrace.noop (some job)
  else
    match listResult with
    | .error e =>
      { ReconcileTrace.noop (some job) with error := some (.listFailed e) }
    | .ok [] => reconcileZeroActivities d job
    | .ok [pipelineActivity] => reconcileOneActivity d job pipelineActivity
    | .ok (_ :: _ :: _) => ReconcileTrace.noop (some job)

/-- `Reconcile` (controller.go:122-271). `getResult` is the outcome of the
job `Get` (`none` = not found, dropped), `listResult` the outcome of listing
the pipeline activities correlated to `job.Status.ActivityName`. -/
def reconcile (d : ReconcileDeps) (getResult : Option LighthouseJob)
    (listResult : Except String (List PipelineActivity)) : ReconcileTrace :=
  match getResult with
  | none => ReconcileTrace.noop none
  | some job => reconcileLoaded d job listResult

/-! ## Concrete fixtures (for witnesses and counterexamples) -/

/-- An environment with report base URL and team configured, as the test
harness sets them. -/
def exEnv : Env :=
  { jxServiceAccount := "", jxDefaultImage := ""
    reportURLBase := "https://example.com", reportURLTeam := "some-team" }

/-- A source reference for `acme/widgets` on `main` with no pull requests. -/
def exRefs : Refs :=
  { org := "acme", repo := "widgets"
    cloneURI := "https://github.com/acme/widgets.git"
    baseRef := "main", baseSHA := "deadbeef", pulls := [] }

/-- A jenkins-x job spec over `exRefs`. -/
def exSpec : LighthouseJobSpec :=
  { agent := jenkinsXAgent, context := "", job := "dummy", refs := exRefs
    envVars := [] }

/-- A freshly triggered status. -/
def exStatusTriggered : LighthouseJobStatus :=
  { state := PipelineState.triggered, activityName := "", startTime := none
    reportURL := "", activity := none }

/-- The job `dummy` in namespace `jx`, state `Triggered`, empty label map. -/
def exJob : LighthouseJob :=
  { name := "dummy", nsName := "jx", labels := some [], spec := exSpec
    status := exStatusTriggered }

/-- A correlated activity with build `3` and no context. -/
def exActivity : PipelineActivity :=
  { name := "acme-widgets-main-3"
    spec := { build := "3", context := "", gitOwner := "acme"
              gitRepository := "widgets", gitBranch := "main" } }

/-- Oracle results where every external call succeeds. -/
def exDeps : ReconcileDeps :=
  { env := exEnv, nsName := "jx", now := 42
    createResult := .ok ⟨"acme-widgets-main-3"⟩
    applyResult := .ok (), updateResult := .ok ()
    statusUpdateResult := .ok () }

/-! ## Helper lemmas -/

/-- Normalization keeps nonempty names nonempty. -/
lemma toValidName_ne_empty {s : String} (h : s ≠ "") : toValidName s ≠ "" := by
  intro hc
  apply h
  unfold toValidName at hc
  have : (s.data.map _) = ([] : List Char) := congrArg String.data hc
  rcases s with ⟨data⟩
  simp only [List.map_eq_nil_iff] at this
  simp [this]

/-- A job passing the agent filter. -/
def agentOK (j : LighthouseJob) : Prop :=
  j.spec.agent = jenkinsXAgent ∨ j.spec.agent = legacyDefaultAgent

lemma not_filter_of_agentOK {j : LighthouseJob} (h : agentOK j) :
    ¬(j.spec.agent ≠ jenkinsXAgent ∧ j.spec.agent ≠ legacyDefaultAgent) := by
  rintro ⟨h1, h2⟩
  rcases h with h | h
  · exact h1 h
  · exact h2 h

/-- A loaded job with zero correlated activities reduces to the
zero-activity branch. -/
lemma reconcile_some_zero (d : ReconcileDeps) {j : LighthouseJob}
    (hagent : agentOK j) :
    reconcile d (some j) (.ok []) = reconcileZeroActivities d j := by
  show reconcileLoaded d j (.ok []) = _
  unfold reconcileLoaded
  rw [if_neg (not_filter_of_agentOK hagent)]

/-- A loaded job with exactly one correlated activity reduces to the
single-activity branch. -/
lemma reconcile_some_one (d : ReconcileDeps) {j : LighthouseJob}
    (a : PipelineActivity) (hagent : agentOK j) :
    reconcile d (some j) (.ok [a]) = reconcileOneActivity d j a := by
  show reconcileLoaded d j (.ok [a]) = _
  unfold reconcileLoaded
  rw [if_neg (not_filter_of_agentOK hagent)]

/-- The fully successful trigger branch. -/
lemma reconcileTriggered_ok (d : ReconcileDeps) (j : LighthouseJob)
    (key : ActivityKey) (hc : d.createResult = .ok key)
    (hs : d.statusUpdateResult = .ok ()) (ha : d.applyResult = .ok ()) :
    reconcileTriggered d j =
      { job := some { j with status := pendingStatus key d.now }
        createCalls := [buildPipelineCreateParam d.env j.spec]
        applyCalls := [key], updateWrites := []
        statusWrites := [pendingStatus key d.now], panicked := false
        error := none } := by
  unfold reconcileTriggered
  simp only [hc, hs, ha]

/-- The trigger branch when `create` fails. -/
lemma reconcileTriggered_create_err (d : ReconcileDeps) (j : LighthouseJob)
    (e : String) (hc : d.createResult = .error e) :
    reconcileTriggered d j =
      { ReconcileTrace.noop (some j) with
        createCalls := [buildPipelineCreateParam d.env j.spec]
        error := some (.createFailed ("unable to create Tekton CRDs: " ++ e)) } := by
  unfold reconcileTriggered
  simp only [hc]

/-- The trigger branch when `create` and the status commit succeed but
`apply` fails. -/
lemma reconcileTriggered_apply_err (d : ReconcileDeps) (j : LighthouseJob)
    (key : ActivityKey) (e : String) (hc : d.createResult = .ok key)
    (hs : d.statusUpdateResult = .ok ()) (ha : d.applyResult = .error e) :
    reconcileTriggered d j =
      { job := some { j with status := pendingStatus key d.now }
        createCalls := [buildPipelineCreateParam d.env j.spec]
        applyCalls := [key], updateWrites := []
        statusWrites := [pendingStatus key d.now], panicked := false
        error := some (.applyFailed ("unable to apply Tekton CRDs: " ++ e)) } := by
  unfold reconcileTriggered
  simp only [hc, hs, ha]

/-- The fully successful single-activity branch. -/
lemma reconcileOneActivity_ok (d : ReconcileDeps) (j : LighthouseJob)
    (a : PipelineActivity) (l : List (String × String))
    (hl : j.labels = some l) (hu : d.updateResult = .ok ())
    (hs : d.statusUpdateResult = .ok ()) :
    reconcileOneActivity d j a =
      { job := some
          { j with
            labels := some (assocSet l buildNumLabel a.spec.build)
            status := { applyReportURL d.env d.nsName (ConvertPipelineActivity a)
                          j.status with
                        activity := some (ConvertPipelineActivity a) } }
        createCalls := [], applyCalls := []
        updateWrites := [{ j with labels := some (assocSet l buildNumLabel a.spec.build) }]
        statusWrites := [{ applyReportURL d.env d.nsName (ConvertPipelineActivity a)
                             j.status with
                           activity := some (ConvertPipelineActivity a) }]
        panicked := false, error := none } := by
  unfold reconcileOneActivity
  simp only [hl, mapAssign, hu, hs]

/-- The single-activity branch on a nil label map: the assignment panics. -/
lemma reconcileOneActivity_nil_labels (d : ReconcileDeps) (j : LighthouseJob)
    (a : PipelineActivity) (hl : j.labels = none) :
    reconcileOneActivity d j a =
      { ReconcileTrace.noop (some j) with panicked := true } := by
  unfold reconcileOneActivity
  simp only [hl, mapAssign]

/-- A job not in `Triggered` never reaches the engine's `create`. -/
lemma createCalls_of_not_triggered (d : ReconcileDeps) (j : LighthouseJob)
    (h : j.status.state ≠ PipelineState.triggered)
    (lr : Except String (List PipelineActivity)) :
    (reconcile d (some j) lr).createCalls = [] := by
  show (reconcileLoaded d j lr).createCalls = []
  unfold reconcileLoaded
  split
  · rfl
  · rcases lr with e | acts
    · rfl
    · rcases acts with _ | ⟨a, _ | ⟨b, rest⟩⟩
      · show (reconcileZeroActivities d j).createCalls = []
        unfold reconcileZeroActivities
        rw [if_neg h]
        rfl
      · show (reconcileOneActivity d j a).createCalls = []
        unfold reconcileOneActivity
        rcases hm : mapAssign j.labels buildNumLabel a.spec.build with _ | l1
        · simp only [hm]
          rfl
        · simp only [hm]
          rcases hu : d.updateResult with _ | _
          · simp only [hu]
            rfl
          · simp only [hu]
            rcases hs : d.statusUpdateResult with _ | _
            · simp only [hs]
            · simp only [hs]
      · rfl

/-- A Go map assignment makes the key readable with the assigned value. -/
lemma lookupKey_assocSet (l : List (String × String)) (k v : String) :
    lookupKey (assocSet l k v) k = some v := by
  induction l with
  | nil => simp [assocSet, lookupKey]
  | cons kv rest ih =>
    rcases kv with ⟨k', v'⟩
    by_cases h : k' = k
    · simp [assocSet, h, lookupKey]
    · simp [assocSet, h, lookupKey, ih]

/-- The pull-request fold only appends to its accumulator. -/
lemma foldl_pullref_append (prs : List PullRequestRef) (acc : String) :
    ∃ t, prs.foldl (fun s pr => s ++ "," ++ pr.id ++ ":" ++ pr.mergeSHA) acc
      = acc ++ t := by
  induction prs generalizing acc with
  | nil => exact ⟨"", by simp⟩
  | cons pr rest ih =>
    rcases ih (acc ++ "," ++ pr.id ++ ":" ++ pr.mergeSHA) with ⟨t, ht⟩
    refine ⟨"," ++ pr.id ++ ":" ++ pr.mergeSHA ++ t, ?_⟩
    simp only [List.foldl_cons]
    rw [ht]
    simp [String.append_assoc]

/-- Every pull request's `id:mergeSHA` pair occurs in the fold's result. -/
lemma foldl_pullref_contains (prs : List PullRequestRef) (acc : String)
    (pr : PullRequestRef) (hmem : pr ∈ prs) :
    ∃ a b, prs.foldl (fun s q => s ++ "," ++ q.id ++ ":" ++ q.mergeSHA) acc
      = a ++ (pr.id ++ ":" ++ pr.mergeSHA) ++ b := by
  induction prs generalizing acc with
  | nil => cases hmem
  | cons q rest ih =>
    rcases List.mem_cons.mp hmem with h | h
    · subst h
      rcases foldl_pullref_append rest
        (acc ++ "," ++ pr.id ++ ":" ++ pr.mergeSHA) with ⟨t, ht⟩
      refine ⟨acc ++ ",", t, ?_⟩
      simp only [List.foldl_cons]
      rw [ht]
      simp [String.append_assoc]
    · exact ih _ h

/-- With a non-empty pull list, `getPullRefs` maps every pull to an
`id:mergeSHA` reference. -/
lemma getPullRefs_pulls (sourceURL : String) (spec : LighthouseJobSpec)
    (h : spec.refs.pulls ≠ []) :
    getPullRefs sourceURL spec =
      { sourceURL := sourceURL, baseBranch := spec.refs.baseRef
        baseSHA := spec.refs.baseSHA
        pullRequests := spec.refs.pulls.map
          fun pull => ⟨toString pull.number, pull.sha⟩ } := by
  unfold getPullRefs
  rcases hq : spec.refs.pulls with _ | ⟨q, rest⟩
  · exact absurd hq h
  · rfl

/-- `PullRef.String()` is never empty: it contains the base `:` separator. -/
lemma pullRef_string_ne_empty (p : PullRef) : p.string ≠ "" := by
  unfold PullRef.string
  rcases foldl_pullref_append p.pullRequests
    (p.baseBranch ++ ":" ++ p.baseSHA) with ⟨t, ht⟩
  rw [ht]
  intro hc
  have hlen := congrArg String.length hc
  simp only [String.length_append] at hlen
  have h1 : (":" : String).length = 1 := rfl
  have h2 : ("" : String).length = 0 := rfl
  omega

/-- Strict missing-key execution: a template with an unresolvable variable
fails to render. -/
lemma executeTemplate_error_of_missing (t : TemplateText)
    (data : List (String × String)) (n : String)
    (hvar : TmplPart.var n ∈ t) (hmiss : lookupKey data n = none) :
    ∃ e, executeTemplate t data = .error e := by
  induction t with
  | nil => cases hvar
  | cons part rest ih =>
    cases part with
    | lit s =>
      have hvar' : TmplPart.var n ∈ rest := by
        rcases List.mem_cons.mp hvar with h | h
        · cases h
        · exact h
      rcases ih hvar' with ⟨e, he⟩
      exact ⟨e, by simp [executeTemplate, he]⟩
    | var m =>
      by_cases hlm : lookupKey data m = none
      · exact ⟨"map has no entry for key " ++ m,
          by simp [executeTemplate, hlm]⟩
      · have hnm : n ≠ m := by
          intro h
          subst h
          exact hlm hmiss
        have hvar' : TmplPart.var n ∈ rest := by
          rcases List.mem_cons.mp hvar with h | h
          · cases h
            exact absurd rfl hnm
          · exact h
        rcases Option.ne_none_iff_exists'.mp hlm with ⟨v, hv⟩
        rcases ih hvar' with ⟨e, he⟩
        exact ⟨e, by simp [executeTemplate, hv, he]⟩

/-- The report-URL branch, field by field: the URL is assigned exactly when
a base URL is configured, the render succeeds, and the result carries an
http(s) scheme; in every other case the previous value is kept. Fields other
than `reportURL` are never touched. -/
lemma applyReportURL_cases (env : Env) (nsName : String)
    (record : ActivityRecord) (st : LighthouseJobStatus) :
    (∀ s, executeTemplate defaultTargetURLTemplate
        (toObjectMap (reportParams env nsName record)) = .ok s →
      getReportURLBase env ≠ "" →
      (hasPrefix s "http://" || hasPrefix s "https://") = true →
      applyReportURL env nsName record st = { st with reportURL := s })
    ∧ (getReportURLBase env = "" → applyReportURL env nsName record st = st)
    ∧ (∀ s, executeTemplate defaultTargetURLTemplate
        (toObjectMap (reportParams env nsName record)) = .ok s →
      (hasPrefix s "http://" || hasPrefix s "https://") = false →
      applyReportURL env nsName record st = st)
    ∧ (∀ e, executeTemplate defaultTargetURLTemplate
        (toObjectMap (reportParams env nsName record)) = .error e →
      applyReportURL env nsName record st = st) := by
  refine ⟨?_, ?_, ?_, ?_⟩
  · intro s hex hb hpre
    unfold applyReportURL
    rw [if_pos hb]
    have ht : createReportTargetURL defaultTargetURLTemplate
        (reportParams env nsName record) = s := by
      unfold createReportTargetURL
      rw [hex]
    rw [ht, if_pos hpre]
  · intro hb
    unfold applyReportURL
    rw [if_neg (by simp [hb])]
  · intro s hex hpre
    unfold applyReportURL
    by_cases hb : getReportURLBase env ≠ ""
    · rw [if_pos hb]
      have ht : createReportTargetURL defaultTargetURLTemplate
          (reportParams env nsName record) = s := by
        unfold createReportTargetURL
        rw [hex]
      rw [ht, if_neg (by simp [hpre])]
    · rw [if_neg hb]
  · intro e hex
    unfold applyReportURL
    by_cases hb : getReportURLBase env ≠ ""
    · rw [if_pos hb]
      have ht : createReportTargetURL defaultTargetURLTemplate
          (reportParams env nsName record) = "" := by
        unfold createReportTargetURL
        rw [hex]
      rw [ht, if_neg (by decide)]
    · rw [if_neg hb]

/-! ## Claim theorems -/

/-- C1: For every job in state `Triggered` with zero correlated pipeline
activities, one reconciliation invokes the engine's `create` exactly once,
and transitions the job to `Pending` with a non-empty normalized
`ActivityName` and a start time iff `create` succeeds; once `ActivityName`
is set the state is `Pending`, not `Triggered`, so repeated reconciliations
of the resulting job never invoke `create` again. -/
theorem triggered_creates_once_and_idempotent (d : ReconcileDeps)
    (j : LighthouseJob) (hagent : agentOK j)
    (hstate : j.status.state = PipelineState.triggered) :
    (reconcile d (some j) (.ok [])).createCalls.length = 1
    ∧ (∀ key, d.createResult = .ok key → key.name ≠ "" →
        ∃ j1, (reconcile d (some j) (.ok [])).job = some j1
          ∧ j1.status.state = PipelineState.pending
          ∧ j1.status.activityName = toValidName key.name
          ∧ j1.status.activityName ≠ ""
          ∧ j1.status.startTime = some d.now
          ∧ ∀ (d2 : ReconcileDeps) lr,
              (reconcile d2 (some j1) lr).createCalls = [])
    ∧ (∀ e, d.createResult = .error e →
        (reconcile d (some j) (.ok [])).job = some j
        ∧ j.status.state ≠ PipelineState.pending) := by
  rw [reconcile_some_zero d hagent]
  unfold reconcileZeroActivities
  rw [if_pos hstate]
  refine ⟨?_, ?_, ?_⟩
  · rcases hc : d.createResult with e | key
    · rw [reconcileTriggered_create_err d j e hc]
      rfl
    · unfold reconcileTriggered
      simp only [hc]
      rcases hs : d.statusUpdateResult with e | u
      · simp only [hs]
        rfl
      · simp only [hs]
        rcases ha : d.applyResult with e2 | u2
        · simp only [ha]
          rfl
        · simp only [ha]
          rfl
  · intro key hc hkey
    refine ⟨{ j with status := pendingStatus key d.now }, ?_, rfl, rfl,
      toValidName_ne_empty hkey, rfl, ?_⟩
    · unfold reconcileTriggered
      simp only [hc]
      rcases hs : d.statusUpdateResult with e | u
      · simp only [hs]
      · simp only [hs]
        rcases ha : d.applyResult with e2 | u2
        · simp only [ha]
        · simp only [ha]
    · intro d2 lr
      exact createCalls_of_not_triggered d2 _ (by simp [pendingStatus]) lr
  · intro e hc
    rw [reconcileTriggered_create_err d j e hc]
    refine ⟨rfl, ?_⟩
    rw [hstate]
    decide

/-- C1 witness: at the concrete triggered job `dummy` with all-success
oracles, `create` is called once and the job ends `Pending` with a
non-empty activity name. -/
theorem triggered_creates_once_and_idempotent_witness :
    (reconcile exDeps (some exJob) (.ok [])).createCalls.length = 1
    ∧ ∃ j1, (reconcile exDeps (some exJob) (.ok [])).job = some j1
        ∧ j1.status.state = PipelineState.pending
        ∧ j1.status.activityName ≠ "" := by
  have h := triggered_creates_once_and_idempotent exDeps exJob
    (Or.inl rfl) rfl
  refine ⟨h.1, ?_⟩
  rcases h.2.1 ⟨"acme-widgets-main-3"⟩ rfl (by decide)
    with ⟨j1, hj, hst, _, hne, _⟩
  exact ⟨j1, hj, hst, hne⟩

/-- C4: On the trigger path, a successful `create` is followed by the
`Pending`/`ActivityName` status commit, and only then by `apply`; a failing
`apply` returns the wrapped stage error while the persisted `Pending`
status write remains. -/
theorem pending_persisted_before_apply (d : ReconcileDeps)
    (j : LighthouseJob) (key : ActivityKey) (e : String)
    (hagent : agentOK j) (hstate : j.status.state = PipelineState.triggered)
    (hc : d.createResult = .ok key) (hs : d.statusUpdateResult = .ok ())
    (ha : d.applyResult = .error e) :
    (reconcile d (some j) (.ok [])).error
      = some (.applyFailed ("unable to apply Tekton CRDs: " ++ e))
    ∧ (reconcile d (some j) (.ok [])).statusWrites = [pendingStatus key d.now]
    ∧ (pendingStatus key d.now).state = PipelineState.pending
    ∧ (pendingStatus key d.now).activityName = toValidName key.name
    ∧ (reconcile d (some j) (.ok [])).job
        = some { j with status := pendingStatus key d.now }
    ∧ (reconcile d (some j) (.ok [])).applyCalls = [key] := by
  rw [reconcile_some_zero d hagent]
  unfold reconcileZeroActivities
  rw [if_pos hstate, reconcileTriggered_apply_err d j key e hc hs ha]
  exact ⟨rfl, rfl, rfl, rfl, rfl, rfl⟩

/-- C4 witness: the concrete triggered job with a failing `apply` keeps its
persisted `Pending` status and surfaces the wrapped apply error. -/
theorem pending_persisted_before_apply_witness :
    (reconcile { exDeps with applyResult := .error "boom" } (some exJob)
        (.ok [])).error
      = some (.applyFailed "unable to apply Tekton CRDs: boom")
    ∧ (reconcile { exDeps with applyResult := .error "boom" } (some exJob)
        (.ok [])).statusWrites
      = [pendingStatus ⟨"acme-widgets-main-3"⟩ 42] := by
  have h := pending_persisted_before_apply
    { exDeps with applyResult := .error "boom" } exJob
    ⟨"acme-widgets-main-3"⟩ "boom" (Or.inl rfl) rfl rfl rfl rfl
  exact ⟨h.1, h.2.1⟩

/-- C5: With more than one correlated pipeline activity, reconciliation is a
pure no-op: the job is unchanged, neither `create` nor `apply` is invoked,
nothing is written, and no error is returned. -/
theorem multi_activity_noop (d : ReconcileDeps) (j : LighthouseJob)
    (acts : List PipelineActivity) (h2 : 2 ≤ acts.length) :
    reconcile d (some j) (.ok acts) = ReconcileTrace.noop (some j) := by
  rcases acts with _ | ⟨a, _ | ⟨b, rest⟩⟩
  · simp at h2
  · simp at h2
  · show reconcileLoaded d j (.ok (a :: b :: rest)) = _
    unfold reconcileLoaded
    split
    · rfl
    · rfl

/-- C5 witness: two concrete activities correlated to the concrete job
produce the unchanged no-op trace. -/
theorem multi_activity_noop_witness :
    reconcile exDeps (some exJob) (.ok [exActivity, exActivity])
      = ReconcileTrace.noop (some exJob) :=
  multi_activity_noop exDeps exJob [exActivity, exActivity] (by decide)

/-- C6: On the trigger path, the run kind handed to `create` is
`pull-request` iff the job's pull-request list is non-empty, and `release`
iff it is empty. -/
theorem run_kind_by_pulls (d : ReconcileDeps) (j : LighthouseJob)
    (hagent : agentOK j)
    (hstate : j.status.state = PipelineState.triggered) :
    (reconcile d (some j) (.ok [])).createCalls
      = [buildPipelineCreateParam d.env j.spec]
    ∧ ((buildPipelineCreateParam d.env j.spec).pipelineKind
          = PipelineKind.pullRequest ↔ 1 ≤ j.spec.refs.pulls.length)
    ∧ ((buildPipelineCreateParam d.env j.spec).pipelineKind
          = PipelineKind.release ↔ j.spec.refs.pulls = []) := by
  have hk : (buildPipelineCreateParam d.env j.spec).pipelineKind
      = if j.spec.refs.pulls.length > 0 then PipelineKind.pullRequest
        else PipelineKind.release := rfl
  refine ⟨?_, ?_, ?_⟩
  · rw [reconcile_some_zero d hagent]
    unfold reconcileZeroActivities
    rw [if_pos hstate]
    rcases hc : d.createResult with e | key
    · rw [reconcileTriggered_create_err d j e hc]
    · unfold reconcileTriggered
      simp only [hc]
      rcases hs : d.statusUpdateResult with e | u
      · simp only [hs]
      · simp only [hs]
        rcases ha : d.applyResult with e2 | u2
        · simp only [ha]
        · simp only [ha]
  · rw [hk]
    by_cases hp : j.spec.refs.pulls.length > 0
    · rw [if_pos hp]
      constructor
      · intro _
        omega
      · intro _
        rfl
    · rw [if_neg hp]
      constructor
      · intro hcon
        cases hcon
      · intro hcon
        omega
  · rw [hk]
    by_cases hp : j.spec.refs.pulls.length > 0
    · rw [if_pos hp]
      constructor
      · intro hcon
        cases hcon
      · intro hnil
        rw [hnil] at hp
        simp at hp
    · rw [if_neg hp]
      have hz : j.spec.refs.pulls.length = 0 := by omega
      simp [List.length_eq_zero.mp hz]

/-- C6 witness: the concrete job with one pull request is routed to the
pull-request kind; the same job without pull requests to the release kind. -/
theorem run_kind_by_pulls_witness :
    ((buildPipelineCreateParam exEnv
        { exSpec with refs := { exRefs with pulls := [⟨5, "abc"⟩] } }).pipelineKind
      = PipelineKind.pullRequest)
    ∧ (buildPipelineCreateParam exEnv exSpec).pipelineKind
      = PipelineKind.release := by
  constructor
  · exact (run_kind_by_pulls exDeps
      { exJob with spec := { exSpec with refs := { exRefs with pulls := [⟨5, "abc"⟩] } } }
      (Or.inl rfl) rfl).2.1.mpr (by decide)
  · exact (run_kind_by_pulls exDeps exJob (Or.inl rfl) rfl).2.2.mpr rfl

/-- C10: In the exactly-one-activity branch the build-number label write
targets the job's label map without initialization; on a job whose label
map is nil the error branch of the map update is reached (a runtime panic
in Go) and nothing else happens. -/
theorem nil_labels_panics (d : ReconcileDeps) (j : LighthouseJob)
    (a : PipelineActivity) (hagent : agentOK j) (hl : j.labels = none) :
    reconcile d (some j) (.ok [a])
      = { ReconcileTrace.noop (some j) with panicked := true } := by
  rw [reconcile_some_one d a hagent, reconcileOneActivity_nil_labels d j a hl]

/-- C10 witness: the concrete job with a nil label map panics on the
build-number label write. -/
theorem nil_labels_panics_witness :
    reconcile exDeps (some { exJob with labels := none }) (.ok [exActivity])
      = { ReconcileTrace.noop (some { exJob with labels := none }) with
          panicked := true } :=
  nil_labels_panics exDeps { exJob with labels := none } exActivity
    (Or.inl rfl) rfl

/-- C2: With exactly one correlated activity, after reconciliation the
job's `status.activity` snapshot equals the field-by-field translation of
that activity (owner, repo, branch, build identifier, context), and the
build-number label equals the activity's build field. -/
theorem one_activity_mirrors_status (d : ReconcileDeps) (j : LighthouseJob)
    (a : PipelineActivity) (l : List (String × String))
    (hagent : agentOK j) (hl : j.labels = some l)
    (hu : d.updateResult = .ok ()) (hs : d.statusUpdateResult = .ok ()) :
    ∃ j2, (reconcile d (some j) (.ok [a])).job = some j2
      ∧ j2.status.activity = some (ConvertPipelineActivity a)
      ∧ (ConvertPipelineActivity a).owner = a.spec.gitOwner
      ∧ (ConvertPipelineActivity a).repo = a.spec.gitRepository
      ∧ (ConvertPipelineActivity a).branch = a.spec.gitBranch
      ∧ (ConvertPipelineActivity a).buildIdentifier = a.spec.build
      ∧ (ConvertPipelineActivity a).context = a.spec.context
      ∧ j2.labels = some (assocSet l buildNumLabel a.spec.build)
      ∧ lookupKey (assocSet l buildNumLabel a.spec.build) buildNumLabel
          = some a.spec.build := by
  rw [reconcile_some_one d a hagent, reconcileOneActivity_ok d j a l hl hu hs]
  exact ⟨_, rfl, rfl, rfl, rfl, rfl, rfl, rfl, rfl,
    lookupKey_assocSet l buildNumLabel a.spec.build⟩

/-- C2 witness: the concrete job with the concrete build-`3` activity ends
with that activity's snapshot and the `buildNum` label set to `3`. -/
theorem one_activity_mirrors_status_witness :
    ∃ j2, (reconcile exDeps (some exJob) (.ok [exActivity])).job = some j2
      ∧ j2.status.activity = some (ConvertPipelineActivity exActivity)
      ∧ j2.labels = some (assocSet [] buildNumLabel "3")
      ∧ lookupKey (assocSet [] buildNumLabel "3") buildNumLabel = some "3" := by
  rcases one_activity_mirrors_status exDeps exJob exActivity []
      (Or.inl rfl) rfl rfl rfl
    with ⟨j2, hj, hact, _, _, _, _, _, hlab, hlook⟩
  exact ⟨j2, hj, hact, hlab, hlook⟩

/-- C3: With exactly one correlated activity, `status.reportURL` is
assigned iff the configured base URL is non-empty, the template render
succeeds, and the rendered result starts with `http://` or `https://`;
in every other case it keeps its previous value. -/
theorem report_url_set_iff (d : ReconcileDeps) (j : LighthouseJob)
    (a : PipelineActivity) (l : List (String × String))
    (hagent : agentOK j) (hl : j.labels = some l)
    (hu : d.updateResult = .ok ()) (hs : d.statusUpdateResult = .ok ()) :
    ∃ j2, (reconcile d (some j) (.ok [a])).job = some j2
      ∧ (∀ s, executeTemplate defaultTargetURLTemplate
            (toObjectMap (reportParams d.env d.nsName
              (ConvertPipelineActivity a))) = .ok s →
          getReportURLBase d.env ≠ "" →
          (hasPrefix s "http://" || hasPrefix s "https://") = true →
          j2.status.reportURL = s)
      ∧ (getReportURLBase d.env = "" →
          j2.status.reportURL = j.status.reportURL)
      ∧ (∀ s, executeTemplate defaultTargetURLTemplate
            (toObjectMap (reportParams d.env d.nsName
              (ConvertPipelineActivity a))) = .ok s →
          (hasPrefix s "http://" || hasPrefix s "https://") = false →
          j2.status.reportURL = j.status.reportURL)
      ∧ (∀ e, executeTemplate defaultTargetURLTemplate
            (toObjectMap (reportParams d.env d.nsName
              (ConvertPipelineActivity a))) = .error e →
          j2.status.reportURL = j.status.reportURL) := by
  rw [reconcile_some_one d a hagent, reconcileOneActivity_ok d j a l hl hu hs]
  rcases applyReportURL_cases d.env d.nsName (ConvertPipelineActivity a)
      j.status with ⟨h1, h2, h3, h4⟩
  refine ⟨_, rfl, ?_, ?_, ?_, ?_⟩
  · intro s hex hb hpre
    show ({ applyReportURL d.env d.nsName (ConvertPipelineActivity a) j.status
        with activity := some (ConvertPipelineActivity a) }).reportURL = s
    rw [h1 s hex hb hpre]
  · intro hb
    show ({ applyReportURL d.env d.nsName (ConvertPipelineActivity a) j.status
        with activity := some (ConvertPipelineActivity a) }).reportURL
      = j.status.reportURL
    rw [h2 hb]
  · intro s hex hpre
    show ({ applyReportURL d.env d.nsName (ConvertPipelineActivity a) j.status
        with activity := some (ConvertPipelineActivity a) }).reportURL
      = j.status.reportURL
    rw [h3 s hex hpre]
  · intro e hex
    show ({ applyReportURL d.env d.nsName (ConvertPipelineActivity a) j.status
        with activity := some (ConvertPipelineActivity a) }).reportURL
      = j.status.reportURL
    rw [h4 e hex]

/-- C3 witness: with the configured base URL the concrete render is the
expected https URL and it is assigned to `status.reportURL`. -/
theorem report_url_set_iff_witness :
    ∃ j2, (reconcile exDeps (some exJob) (.ok [exActivity])).job = some j2
      ∧ j2.status.reportURL
        = "https://example.com/teams/some-team/projects/acme/widgets/main/3" := by
  rcases report_url_set_iff exDeps exJob exActivity []
      (Or.inl rfl) rfl rfl rfl with ⟨j2, hj, h1, _, _, _⟩
  exact ⟨j2, hj, h1 _ (by rfl) (by decide) (by decide)⟩

/-- C7: The synthetic pull-ref descriptor: with no pull requests it is
`<branch>:`; with pull requests it is `PullRef.String()`, in which every
pull request's `number:revision` pair occurs. -/
theorem pull_ref_descriptor (spec : LighthouseJobSpec) :
    (spec.refs.pulls = [] → spec.getBranch ≠ "" →
      pullRefsString spec = spec.getBranch ++ ":")
    ∧ (spec.refs.pulls ≠ [] →
        pullRefsString spec = (getPullRefs spec.refs.cloneURI spec).string
        ∧ ∀ p ∈ spec.refs.pulls, ∃ a b,
            pullRefsString spec = a ++ (toString p.number ++ ":" ++ p.sha) ++ b) := by
  constructor
  · intro hnil hbr
    simp only [pullRefsString]
    rw [hnil]
    rw [if_neg (show ¬(List.length ([] : List Pull) > 0) by simp)]
    rw [if_pos rfl, if_neg hbr]
  · intro hne
    have hstr : pullRefsString spec
        = (getPullRefs spec.refs.cloneURI spec).string := by
      simp only [pullRefsString]
      rcases hp : spec.refs.pulls with _ | ⟨q, rest⟩
      · exact absurd hp hne
      · rw [if_pos (show (q :: rest).length > 0 from Nat.succ_pos _)]
        rw [if_neg (pullRef_string_ne_empty (getPullRefs spec.refs.cloneURI spec))]
    refine ⟨hstr, ?_⟩
    intro p hpmem
    rw [hstr, getPullRefs_pulls spec.refs.cloneURI spec hne]
    have hmem : (⟨toString p.number, p.sha⟩ : PullRequestRef)
        ∈ spec.refs.pulls.map
            (fun pull => (⟨toString pull.number, pull.sha⟩ : PullRequestRef)) :=
      List.mem_map_of_mem _ hpmem
    rcases foldl_pullref_contains _
      (spec.refs.baseRef ++ ":" ++ spec.refs.baseSHA) _ hmem with ⟨x, y, hxy⟩
    exact ⟨x, y, hxy⟩

/-- C7 witness: the concrete no-pull job renders `main:`, and one pull
request numbered `5` with revision `abc` yields a descriptor containing
`5:abc`. -/
theorem pull_ref_descriptor_witness :
    pullRefsString exSpec = "main:"
    ∧ ∃ a b, pullRefsString
        { exSpec with refs := { exRefs with pulls := [⟨5, "abc"⟩] } }
      = a ++ "5:abc" ++ b := by
  constructor
  · exact (pull_ref_descriptor exSpec).1 rfl (by decide)
  · rcases ((pull_ref_descriptor
        { exSpec with refs := { exRefs with pulls := [⟨5, "abc"⟩] } }).2
        (by decide)).2 ⟨5, "abc"⟩ (by decide) with ⟨a, b, hab⟩
    exact ⟨a, b, hab⟩

/-- C8: A template with a variable that is not resolvable from the
parameter record fails the strict render and `createReportTargetURL`
returns the empty string; and in the single-activity branch a render
outcome never makes `Reconcile` return an error. -/
theorem strict_missing_key_render (tmpl : TemplateText) (p : ReportParams)
    (n : String) (hvar : TmplPart.var n ∈ tmpl)
    (hmiss : lookupKey (toObjectMap p) n = none) :
    (∃ e, executeTemplate tmpl (toObjectMap p) = .error e)
    ∧ createReportTargetURL tmpl p = ""
    ∧ ∀ (d : ReconcileDeps) (j : LighthouseJob) (a : PipelineActivity)
        (l : List (String × String)), agentOK j → j.labels = some l →
        d.updateResult = .ok () → d.statusUpdateResult = .ok () →
        (reconcile d (some j) (.ok [a])).error = none := by
  rcases executeTemplate_error_of_missing tmpl (toObjectMap p) n hvar hmiss
    with ⟨e, he⟩
  refine ⟨⟨e, he⟩, ?_, ?_⟩
  · unfold createReportTargetURL
    rw [he]
  · intro d j a l hagent hl hu hs
    rw [reconcile_some_one d a hagent, reconcileOneActivity_ok d j a l hl hu hs]

/-- C8 witness: a template referencing the unresolvable variable `Nope`
renders to the empty string, and the concrete single-activity
reconciliation returns no error. -/
theorem strict_missing_key_render_witness :
    createReportTargetURL [TmplPart.var "Nope"]
        (reportParams exEnv "jx" (ConvertPipelineActivity exActivity)) = ""
    ∧ (reconcile exDeps (some exJob) (.ok [exActivity])).error = none := by
  have h := strict_missing_key_render [TmplPart.var "Nope"]
    (reportParams exEnv "jx" (ConvertPipelineActivity exActivity)) "Nope"
    (by decide) (by decide)
  exact ⟨h.2.1, h.2.2 exDeps exJob exActivity [] (Or.inl rfl) rfl rfl rfl⟩

/-- C9 counterexample: for the concrete job and an activity with empty
context, the snapshot written onto the job keeps the empty context (not
`jenkins-x`), while the report-URL parameters do get the default. -/
theorem context_default_counterexample :
    ((reconcile exDeps (some exJob) (.ok [exActivity])).job.bind
        (fun j => j.status.activity)).map ActivityRecord.context = some ""
    ∧ (some "" : Option String) ≠ some "jenkins-x"
    ∧ (reportParams exEnv "jx" (ConvertPipelineActivity exActivity)).context
        = "jenkins-x" := by
  exact ⟨by decide, by decide, by decide⟩

/-- C9 amended: with exactly one correlated activity whose context is
empty, the default context `jenkins-x` is applied only to the report-URL
parameters; the snapshot written onto the job keeps the activity's context
verbatim. -/
theorem context_default_amended (d : ReconcileDeps) (j : LighthouseJob)
    (a : PipelineActivity) (l : List (String × String))
    (hagent : agentOK j) (hl : j.labels = some l)
    (hu : d.updateResult = .ok ()) (hs : d.statusUpdateResult = .ok ()) :
    ∃ j2, (reconcile d (some j) (.ok [a])).job = some j2
      ∧ j2.status.activity.map ActivityRecord.context = some a.spec.context
      ∧ (a.spec.context = "" →
          (reportParams d.env d.nsName (ConvertPipelineActivity a)).context
            = "jenkins-x")
      ∧ (a.spec.context ≠ "" →
          (reportParams d.env d.nsName (ConvertPipelineActivity a)).context
            = a.spec.context) := by
  rw [reconcile_some_one d a hagent, reconcileOneActivity_ok d j a l hl hu hs]
  refine ⟨_, rfl, rfl, ?_, ?_⟩
  · intro hc
    unfold reportParams
    simp only [ConvertPipelineActivity, hc]
    rfl
  · intro hc
    unfold reportParams
    simp only [ConvertPipelineActivity]
    rw [if_neg hc]

/-- C9 amended witness: the concrete empty-context activity leaves the
snapshot context empty while the report parameters get `jenkins-x`. -/
theorem context_default_amended_witness :
    ∃ j2, (reconcile exDeps (some exJob) (.ok [exActivity])).job = some j2
      ∧ j2.status.activity.map ActivityRecord.context = some ""
      ∧ (reportParams exEnv "jx" (ConvertPipelineActivity exActivity)).context
          = "jenkins-x" := by
  rcases context_default_amended exDeps exJob exActivity []
      (Or.inl rfl) rfl rfl rfl with ⟨j2, hj, hctx, hdef, _⟩
  exact ⟨j2, hj, hctx, hdef rfl⟩

end LighthouseJX
